import Mathlib

/-!
Shallow embedding of the conversation state machine of the medical
appointment scheduling assistant (the page component of the web app),
together with proofs about its intent classifier, slot extractors and
flow handlers.  Pure helper functions are translated directly from the
source; the impure pieces (the current date used by the date extractor
and the four remote scheduling calls) are passed in explicitly through
an environment record, and the React setState sequencing of a handler is
modelled by returning the final state written during the turn (or none
when the handler returns without writing a state).
-/

namespace MedSched

/-! ## Character and string helpers (models of the JS primitives used) -/

/-- Model of the JS word-character class `\w`, that is `[A-Za-z0-9_]`. -/
def isWordChar (c : Char) : Bool :=
  (97 ≤ c.toNat && c.toNat ≤ 122) || (65 ≤ c.toNat && c.toNat ≤ 90) ||
  (48 ≤ c.toNat && c.toNat ≤ 57) || c.toNat == 95

/-- Model of the JS digit class `\d`, that is `[0-9]`. -/
def isDigitChar (c : Char) : Bool :=
  48 ≤ c.toNat && c.toNat ≤ 57

/-- ASCII whitespace characters removed by the JS String.trim method. -/
def wsChar (c : Char) : Bool :=
  c.toNat == 32 || c.toNat == 9 || c.toNat == 10 ||
  c.toNat == 13 || c.toNat == 11 || c.toNat == 12

/-- Model of JS String.trim: strip whitespace from both ends. -/
def jsTrim (s : String) : String :=
  String.mk (((s.data.dropWhile wsChar).reverse.dropWhile wsChar).reverse)

/-- Model of JS String.toLowerCase for the ASCII texts this app handles. -/
def toLowerStr (s : String) : String :=
  String.mk (s.data.map Char.toLower)

/-- Does the list start with the given pattern? -/
def leadsWith : List Char → List Char → Bool
  | [], _ => true
  | _ :: _, [] => false
  | p :: ps, c :: cs => p == c && leadsWith ps cs

/-- Does the list contain the pattern as a contiguous run?  Model of the
JS String.includes method (on the char lists of the two strings). -/
def hasSub (pat : List Char) : List Char → Bool
  | [] => pat.isEmpty
  | c :: cs => leadsWith pat (c :: cs) || hasSub pat cs

/-- Model of `s.includes(pat)` in JS. -/
def strIncludes (s pat : String) : Bool :=
  hasSub pat.data s.data

/-- Decimal value of a digit list, the value JS Number gives a digit-only
string (exact for every index that can be in range here). -/
def digitsToNat (l : List Char) : Nat :=
  l.foldl (fun acc c => acc * 10 + (c.toNat - 48)) 0

/-! ## Data model (from the page component) -/

inductive AppointmentTypeKey
  | consultation
  | followup
  | physical
  | specialist
deriving DecidableEq, Repr

structure AppointmentTypeConfig where
  key : AppointmentTypeKey
  label : String
  durationMinutes : Nat
deriving DecidableEq, Repr

structure AvailabilitySlot where
  start_time : String
  end_time : String
  available : Bool
deriving DecidableEq, Repr

inductive Intent
  | book
  | reschedule
  | cancel
deriving DecidableEq, Repr

inductive ConversationStep
  | idle
  | askIntent
  | askType
  | askDate
  | fetchingSlots
  | selectSlot
  | askName
  | askEmail
  | askPhone
  | askReason
  | confirmingBooking
  | bookingComplete
  | askBookingIdForReschedule
  | askNewDateForReschedule
  | askNewTimeForReschedule
  | rescheduling
  | rescheduleComplete
  | askBookingIdForCancel
  | askReasonForCancel
  | cancelling
  | cancelComplete
deriving DecidableEq, Repr

structure ConversationState where
  intent : Option Intent
  step : ConversationStep
  appointmentType : Option AppointmentTypeConfig
  date : Option String
  slots : List AvailabilitySlot
  selectedSlot : Option AvailabilitySlot
  patientName : Option String
  patientEmail : Option String
  patientPhone : Option String
  reason : Option String
  bookingId : Option String
deriving DecidableEq, Repr

def APPOINTMENT_TYPES : List AppointmentTypeConfig :=
  [ { key := AppointmentTypeKey.consultation, label := "General Consultation", durationMinutes := 30 },
    { key := AppointmentTypeKey.followup, label := "Follow-up", durationMinutes := 15 },
    { key := AppointmentTypeKey.physical, label := "Physical Exam", durationMinutes := 45 },
    { key := AppointmentTypeKey.specialist, label := "Specialist Consultation", durationMinutes := 60 } ]

def createInitialState : ConversationState :=
  { intent := none
    step := ConversationStep.askIntent
    appointmentType := none
    date := none
    slots := []
    selectedSlot := none
    patientName := none
    patientEmail := none
    patientPhone := none
    reason := none
    bookingId := none }

/-! ## Intent classifier and slot extractors -/

def detectIntent (input : String) : Intent :=
  let text := toLowerStr input
  if strIncludes text "reschedul" then Intent.reschedule
  else if strIncludes text "cancel" then Intent.cancel
  else Intent.book

def detectAppointmentType (input : String) : Option AppointmentTypeConfig :=
  let text := toLowerStr input
  if strIncludes text "follow" || strIncludes text "follow-up" then
    APPOINTMENT_TYPES.find? (fun t => t.key == AppointmentTypeKey.followup)
  else if strIncludes text "physical" then
    APPOINTMENT_TYPES.find? (fun t => t.key == AppointmentTypeKey.physical)
  else if strIncludes text "specialist" then
    APPOINTMENT_TYPES.find? (fun t => t.key == AppointmentTypeKey.specialist)
  else if strIncludes text "consult" || strIncludes text "general" ||
          strIncludes text "checkup" || strIncludes text "check-up" then
    APPOINTMENT_TYPES.find? (fun t => t.key == AppointmentTypeKey.consultation)
  else
    none

/-- Does an ISO date literal (the regex `\d{4}-\d{2}-\d{2}` with a trailing
word boundary) start exactly here?  Returns the matched characters. -/
def isoHere : List Char → Option (List Char)
  | a :: b :: c :: d :: e :: f :: g :: h :: i :: j :: rest =>
    if isDigitChar a && isDigitChar b && isDigitChar c && isDigitChar d &&
       e == '-' && isDigitChar f && isDigitChar g && h == '-' &&
       isDigitChar i && isDigitChar j &&
       (match rest with | [] => true | k :: _ => !isWordChar k) then
      some [a, b, c, d, e, f, g, h, i, j]
    else
      none
  | _ => none

/-- First match of the regex `\b\d{4}-\d{2}-\d{2}\b`; the first argument is
the character before the scan position (none at the start of the string). -/
def findIso : Option Char → List Char → Option (List Char)
  | _, [] => none
  | prev, c :: cs =>
    let boundary := match prev with | none => true | some p => !isWordChar p
    match (if boundary then isoHere (c :: cs) else none) with
    | some m => some m
    | none => findIso (some c) cs

/-- Suffix `:mm` of the time regex together with the trailing word boundary;
returns the matched characters. -/
def timeRest : List Char → Option (List Char)
  | col :: m1 :: m2 :: rest =>
    if col == ':' && (48 ≤ m1.toNat && m1.toNat ≤ 53) && isDigitChar m2 &&
       (match rest with | [] => true | k :: _ => !isWordChar k) then
      some [col, m1, m2]
    else
      none
  | _ => none

/-- A match of `([01]?\d|2[0-3]):[0-5]\d\b` starting exactly here, trying the
alternatives in the backtracking order of the JS regex engine. -/
def timeHere (l : List Char) : Option (List Char) :=
  let attempt2 : Option (List Char) :=
    match l with
    | h1 :: rest =>
      if isDigitChar h1 then (timeRest rest).map (fun t => h1 :: t) else none
    | _ => none
  let attempt3 : Option (List Char) :=
    match l with
    | h1 :: h2 :: rest =>
      if h1 == '2' && (48 ≤ h2.toNat && h2.toNat ≤ 51) then
        (timeRest rest).map (fun t => h1 :: h2 :: t)
      else none
    | _ => none
  match l with
  | h1 :: h2 :: rest =>
    if (h1 == '0' || h1 == '1') && isDigitChar h2 then
      match (timeRest rest).map (fun t => h1 :: h2 :: t) with
      | some m => some m
      | none => match attempt2 with | some m => some m | none => attempt3
    else
      match attempt2 with | some m => some m | none => attempt3
  | _ => match attempt2 with | some m => some m | none => attempt3

/-- First match of the regex `\b([01]?\d|2[0-3]):[0-5]\d\b`. -/
def findTime : Option Char → List Char → Option (List Char)
  | _, [] => none
  | prev, c :: cs =>
    let boundary := match prev with | none => true | some p => !isWordChar p
    match (if boundary then timeHere (c :: cs) else none) with
    | some m => some m
    | none => findTime (some c) cs

/-- Model of `.padStart(5, "0")` on a time match (length four or five). -/
def padTime (m : List Char) : String :=
  String.mk (List.replicate (5 - m.length) '0' ++ m)

/-- The time-literal arm of the slot selection extractor: first time literal
in the input, zero padded, matched against the start time of an available
slot. -/
def slotByTime (input : String) (slots : List AvailabilitySlot) : Option AvailabilitySlot :=
  match findTime none input.data with
  | none => none
  | some m =>
    let time := padTime m
    slots.find? (fun slot => slot.start_time == time && slot.available)

/-- parseSlotSelection from the page component: a purely numeric trimmed
input is a one-based index into the slot list (in range wins immediately,
out of range falls through), otherwise the first time literal selects the
available slot with that start time. -/
def parseSlotSelection (input : String) (slots : List AvailabilitySlot) : Option AvailabilitySlot :=
  if slots = [] then none
  else
    let trimmed := (jsTrim input).data
    if trimmed ≠ [] ∧ trimmed.all isDigitChar then
      let index : Int := (digitsToNat trimmed : Int) - 1
      if 0 ≤ index ∧ index < (slots.length : Int) then
        slots.get? index.toNat
      else
        slotByTime input slots
    else
      slotByTime input slots

/-! ## Remote scheduling client contract and turn environment -/

inductive RemoteResult (α : Type)
  | success (value : α)
  | failure
deriving DecidableEq, Repr

structure BookResponse where
  booking_id : String
  status : String
  confirmation_code : String
deriving DecidableEq, Repr

structure RescheduleResponse where
  booking_id : String
  status : String
  previous_booking_id : String
deriving DecidableEq, Repr

structure CancelResponse where
  booking_id : String
  status : String
deriving DecidableEq, Repr

/-- The ambient effects of one turn: the current date read by the date
extractor (today and tomorrow already rendered to ISO strings, as the JS
Date code does) and the four remote scheduling calls. -/
structure Env where
  todayISO : String
  tomorrowISO : String
  fetchAvailability : String → AppointmentTypeConfig → RemoteResult (List AvailabilitySlot)
  bookAppointment : AppointmentTypeConfig → String → AvailabilitySlot → String → String →
    String → Option String → RemoteResult BookResponse
  rescheduleAppointment : String → String → String → RemoteResult RescheduleResponse
  cancelAppointment : String → Option String → RemoteResult CancelResponse

/-- normalizeDateFromInput: an ISO literal wins, then the words today and
tomorrow resolved against the current date, otherwise no date. -/
def normalizeDateFromInput (env : Env) (input : String) : Option String :=
  match findIso none input.data with
  | some m => some (String.mk m)
  | none =>
    let text := toLowerStr input
    if strIncludes text "today" then some env.todayISO
    else if strIncludes text "tomorrow" then some env.tomorrowISO
    else none

/-- One constructor per call site of appendAgentMessage, so that which
utterance a branch produced is observable without copying the texts. -/
inductive AgentMsg
  | typeChosen (t : AppointmentTypeConfig)
  | askTypeMenu
  | badBookingDate
  | missingTypeForAvailability
  | noAvailability
  | slotOptions (date : String) (slots : List AvailabilitySlot)
  | availabilityError
  | slotNotMatched
  | slotHeld (slot : AvailabilitySlot) (date : Option String)
  | askEmailMsg
  | askPhoneMsg
  | askReasonMsg
  | missingBookingInfo
  | bookingConfirmed (bookingId confirmationCode : String)
  | bookingFailed
  | askRescheduleId
  | askNewDate
  | badRescheduleDate
  | askNewTime
  | badRescheduleTime
  | missingRescheduleInfo
  | rescheduled (newId prevId : String) (date : Option String) (time : String)
  | rescheduleFailed
  | askCancelId
  | askCancelReason
  | missingCancelId
  | cancelled (bookingId : String)
  | cancelFailed
  | startReschedule
  | startCancel
deriving DecidableEq, Repr

/-- Result of one handler invocation: the last state passed to setState
during the turn (none when the handler returned without writing one) and
the agent utterances appended, in order. -/
structure TurnOut where
  newState : Option ConversationState
  msgs : List AgentMsg
deriving DecidableEq, Repr

/-! ## Flow handlers -/

/-- Body of handleBookingFlow after the initial currentState reassignment:
one unfilled field is processed per turn, chosen by nullness of the state
fields in source order.  The confirm-time guard and the extraction of the
six required values are one six-way match (the source checks nullness and
then reads the values, which TypeScript narrowing makes the same
operation). -/
def handleBookingFlowCore (env : Env) (s0 : ConversationState) (userText : String) : TurnOut :=
  if s0.appointmentType = none then
    match detectAppointmentType userText with
    | some t =>
      { newState := some { s0 with appointmentType := some t, step := ConversationStep.askDate }
        msgs := [AgentMsg.typeChosen t] }
    | none =>
      { newState := some { s0 with step := ConversationStep.askType }
        msgs := [AgentMsg.askTypeMenu] }
  else if s0.date = none then
    match normalizeDateFromInput env userText with
    | none => { newState := none, msgs := [AgentMsg.badBookingDate] }
    | some date =>
      let s1 := { s0 with date := some date, step := ConversationStep.fetchingSlots }
      match s1.appointmentType with
      | none =>
        { newState := some { s1 with step := ConversationStep.askType }
          msgs := [AgentMsg.missingTypeForAvailability] }
      | some appointmentType =>
        match env.fetchAvailability date appointmentType with
        | RemoteResult.failure =>
          { newState := some { s1 with step := ConversationStep.askDate }
            msgs := [AgentMsg.availabilityError] }
        | RemoteResult.success slots =>
          let available := (slots.filter (fun slot => slot.available)).take 5
          if available = [] then
            { newState := some { s1 with slots := [], step := ConversationStep.askDate }
              msgs := [AgentMsg.noAvailability] }
          else
            { newState := some { s1 with slots := available, step := ConversationStep.selectSlot }
              msgs := [AgentMsg.slotOptions date available] }
  else if s0.selectedSlot = none ∧ s0.slots ≠ [] then
    match parseSlotSelection userText s0.slots with
    | none => { newState := none, msgs := [AgentMsg.slotNotMatched] }
    | some slot =>
      { newState := some { s0 with selectedSlot := some slot, step := ConversationStep.askName }
        msgs := [AgentMsg.slotHeld slot s0.date] }
  else if s0.patientName = none then
    { newState := some { s0 with patientName := some (jsTrim userText), step := ConversationStep.askEmail }
      msgs := [AgentMsg.askEmailMsg] }
  else if s0.patientEmail = none then
    { newState := some { s0 with patientEmail := some (jsTrim userText), step := ConversationStep.askPhone }
      msgs := [AgentMsg.askPhoneMsg] }
  else if s0.patientPhone = none then
    { newState := some { s0 with patientPhone := some (jsTrim userText), step := ConversationStep.askReason }
      msgs := [AgentMsg.askReasonMsg] }
  else if s0.reason = none then
    let s1 := { s0 with reason := some (jsTrim userText), step := ConversationStep.confirmingBooking }
    match s1.appointmentType, s1.date, s1.selectedSlot, s1.patientName, s1.patientEmail, s1.patientPhone with
    | some t, some d, some slot, some nm, some em, some ph =>
      match env.bookAppointment t d slot nm em ph s1.reason with
      | RemoteResult.failure =>
        { newState := some { s1 with step := ConversationStep.askDate }
          msgs := [AgentMsg.bookingFailed] }
      | RemoteResult.success r =>
        { newState := some { s1 with bookingId := some r.booking_id, step := ConversationStep.bookingComplete }
          msgs := [AgentMsg.bookingConfirmed r.booking_id r.confirmation_code] }
    | _, _, _, _, _, _ =>
      { newState := some createInitialState, msgs := [AgentMsg.missingBookingInfo] }
  else
    { newState := none, msgs := [] }

/-- handleBookingFlow: the source first defaults an unset intent to book
in its local currentState and then runs the field-directed body. -/
def handleBookingFlow (env : Env) (state : ConversationState) (userText : String) : TurnOut :=
  handleBookingFlowCore env
    (if state.intent = none then { state with intent := some Intent.book } else state) userText

/-- handleRescheduleFlow.  The source has two consecutive identical guards
before the remote call; both reset, so one match on the two fields models
them. -/
def handleRescheduleFlow (env : Env) (state : ConversationState) (userText : String) : TurnOut :=
  if state.bookingId = none ∧ state.step = ConversationStep.askBookingIdForReschedule then
    let id := jsTrim userText
    if id = "" then { newState := none, msgs := [AgentMsg.askRescheduleId] }
    else
      { newState := some { state with bookingId := some id, step := ConversationStep.askNewDateForReschedule }
        msgs := [AgentMsg.askNewDate] }
  else if state.date = none ∧ state.step = ConversationStep.askNewDateForReschedule then
    match normalizeDateFromInput env userText with
    | none => { newState := none, msgs := [AgentMsg.badRescheduleDate] }
    | some date =>
      { newState := some { state with date := some date, step := ConversationStep.askNewTimeForReschedule }
        msgs := [AgentMsg.askNewTime] }
  else if state.date ≠ none ∧ state.step = ConversationStep.askNewTimeForReschedule then
    match findTime none userText.data with
    | none => { newState := none, msgs := [AgentMsg.badRescheduleTime] }
    | some m =>
      let startTime := padTime m
      match state.bookingId, state.date with
      | some bookingId, some date =>
        let s1 := { state with step := ConversationStep.rescheduling }
        match env.rescheduleAppointment bookingId date startTime with
        | RemoteResult.failure =>
          { newState := some createInitialState, msgs := [AgentMsg.rescheduleFailed] }
        | RemoteResult.success r =>
          { newState := some { s1 with bookingId := some r.booking_id, step := ConversationStep.rescheduleComplete }
            msgs := [AgentMsg.rescheduled r.booking_id r.previous_booking_id s1.date startTime] }
      | _, _ =>
        { newState := some createInitialState, msgs := [AgentMsg.missingRescheduleInfo] }
  else
    { newState := none, msgs := [] }

/-- handleCancelFlow. -/
def handleCancelFlow (env : Env) (state : ConversationState) (userText : String) : TurnOut :=
  if state.bookingId = none ∧ state.step = ConversationStep.askBookingIdForCancel then
    let id := jsTrim userText
    if id = "" then { newState := none, msgs := [AgentMsg.askCancelId] }
    else
      { newState := some { state with bookingId := some id, step := ConversationStep.askReasonForCancel }
        msgs := [AgentMsg.askCancelReason] }
  else if state.step = ConversationStep.askReasonForCancel then
    let reason : Option String :=
      if toLowerStr (jsTrim userText) = "skip" then none else some (jsTrim userText)
    let s1 := { state with reason := reason, step := ConversationStep.cancelling }
    match s1.bookingId with
    | none => { newState := some createInitialState, msgs := [AgentMsg.missingCancelId] }
    | some bookingId =>
      match env.cancelAppointment bookingId reason with
      | RemoteResult.failure =>
        { newState := some createInitialState, msgs := [AgentMsg.cancelFailed] }
      | RemoteResult.success r =>
        { newState := some { s1 with bookingId := some r.booking_id, step := ConversationStep.cancelComplete }
          msgs := [AgentMsg.cancelled r.booking_id] }
  else
    { newState := none, msgs := [] }

/-! ## Top level dispatch (handleSubmit) -/

/-- One accepted user turn.  On an intent turn the source writes the fresh
intent-only state and then runs the booking handler over the closure value
of the state, which still holds the previous state; the final state of the
turn is therefore the last state the handler wrote, or the fresh state when
the handler wrote none.  On routed turns a handler that writes no state
leaves the previous state in place. -/
def processTurn (env : Env) (state : ConversationState) (input : String) :
    ConversationState × List AgentMsg :=
  let trimmed := jsTrim input
  if trimmed = "" then (state, [])
  else if state.step = ConversationStep.idle ∨ state.step = ConversationStep.askIntent then
    let intent := detectIntent trimmed
    let nextState := { createInitialState with intent := some intent }
    match intent with
    | Intent.book =>
      let out := handleBookingFlow env state trimmed
      (out.newState.getD nextState, out.msgs)
    | Intent.reschedule =>
      ({ nextState with step := ConversationStep.askBookingIdForReschedule }, [AgentMsg.startReschedule])
    | Intent.cancel =>
      ({ nextState with step := ConversationStep.askBookingIdForCancel }, [AgentMsg.startCancel])
  else if state.intent = some Intent.book ∨ state.step = ConversationStep.askType ∨
          state.step = ConversationStep.askDate then
    let out := handleBookingFlow env state trimmed
    (out.newState.getD state, out.msgs)
  else if state.intent = some Intent.reschedule ∨
          state.step = ConversationStep.askBookingIdForReschedule ∨
          state.step = ConversationStep.askNewDateForReschedule ∨
          state.step = ConversationStep.askNewTimeForReschedule then
    let out := handleRescheduleFlow env state trimmed
    (out.newState.getD state, out.msgs)
  else if state.intent = some Intent.cancel ∨
          state.step = ConversationStep.askBookingIdForCancel ∨
          state.step = ConversationStep.askReasonForCancel then
    let out := handleCancelFlow env state trimmed
    (out.newState.getD state, out.msgs)
  else
    let out := handleBookingFlow env state trimmed
    (out.newState.getD state, out.msgs)

/-- Fold a sequence of user turns from a starting state. -/
def runTurns (env : Env) (state : ConversationState) : List String → ConversationState
  | [] => state
  | t :: ts => runTurns env (processTurn env state t).1 ts

/-- A state the engine can be in after some sequence of accepted user
turns, under arbitrary remote behaviour in each turn. -/
inductive Reachable : ConversationState → Prop
  | init : Reachable createInitialState
  | step (env : Env) (input : String) (s : ConversationState) :
      Reachable s → Reachable (processTurn env s input).1

/-! ## Concrete fixtures used by witnesses and counterexamples -/

def slotNine : AvailabilitySlot :=
  { start_time := "09:00", end_time := "09:45", available := true }

def slotTen : AvailabilitySlot :=
  { start_time := "10:00", end_time := "10:45", available := true }

def physicalConfig : AppointmentTypeConfig :=
  { key := AppointmentTypeKey.physical, label := "Physical Exam", durationMinutes := 45 }

/-- An environment in which every remote call succeeds. -/
def okEnv : Env :=
  { todayISO := "2024-02-01"
    tomorrowISO := "2024-02-02"
    fetchAvailability := fun _ _ => RemoteResult.success [slotNine, slotTen]
    bookAppointment := fun _ _ _ _ _ _ _ =>
      RemoteResult.success
        { booking_id := "APPT-20240201-0900", status := "confirmed", confirmation_code := "CONF-AB12CD" }
    rescheduleAppointment := fun bid _ _ =>
      RemoteResult.success { booking_id := "APPT-NEW", status := "rescheduled", previous_booking_id := bid }
    cancelAppointment := fun bid _ =>
      RemoteResult.success { booking_id := bid, status := "cancelled" } }

/-- An environment whose availability query succeeds with zero slots. -/
def noSlotsEnv : Env :=
  { okEnv with fetchAvailability := fun _ _ => RemoteResult.success [] }

/-- An environment in which every remote call fails. -/
def failRemoteEnv : Env :=
  { todayISO := "2024-02-01"
    tomorrowISO := "2024-02-02"
    fetchAvailability := fun _ _ => RemoteResult.failure
    bookAppointment := fun _ _ _ _ _ _ _ => RemoteResult.failure
    rescheduleAppointment := fun _ _ _ => RemoteResult.failure
    cancelAppointment := fun _ _ => RemoteResult.failure }

/-- Booking state with every field before reason collected. -/
def preConfirmState : ConversationState :=
  { intent := some Intent.book
    step := ConversationStep.askReason
    appointmentType := some physicalConfig
    date := some "2024-02-01"
    slots := [slotNine, slotTen]
    selectedSlot := some slotNine
    patientName := some "Jane Doe"
    patientEmail := some "jane@example.com"
    patientPhone := some "555-0100"
    reason := none
    bookingId := none }

/-- Cancel flow state at the optional-reason step. -/
def cancelReasonState : ConversationState :=
  { createInitialState with
    intent := some Intent.cancel
    step := ConversationStep.askReasonForCancel
    bookingId := some "APPT-1" }

/-- Reschedule flow state at the new-time step. -/
def rescheduleTimeState : ConversationState :=
  { createInitialState with
    intent := some Intent.reschedule
    step := ConversationStep.askNewTimeForReschedule
    bookingId := some "APPT-1"
    date := some "2024-02-03" }

/-! ## Substring lemmas -/

theorem leadsWith_append (p b : List Char) : leadsWith p (p ++ b) = true := by
  induction p with
  | nil => rfl
  | cons c ps ih => simp [leadsWith, ih]

theorem hasSub_self_append (p b : List Char) : hasSub p (p ++ b) = true := by
  cases p with
  | nil =>
    cases b with
    | nil => rfl
    | cons c cs => simp [hasSub, leadsWith]
  | cons c ps =>
    show hasSub (c :: ps) (c :: (ps ++ b)) = true
    simp [hasSub, leadsWith, leadsWith_append ps b]

theorem hasSub_cons_of (p : List Char) (c : Char) (s : List Char)
    (h : hasSub p s = true) : hasSub p (c :: s) = true := by
  simp [hasSub, h]

theorem hasSub_append_of (p a s : List Char) (h : hasSub p s = true) :
    hasSub p (a ++ s) = true := by
  induction a with
  | nil => simpa using h
  | cons c cs ih => simpa [List.cons_append] using hasSub_cons_of p c (cs ++ s) ih

theorem hasSub_middle (p a b : List Char) : hasSub p (a ++ p ++ b) = true := by
  have h := hasSub_append_of p a (p ++ b) (hasSub_self_append p b)
  simpa [List.append_assoc] using h

theorem toLowerStr_data (s : String) : (toLowerStr s).data = s.data.map Char.toLower := rfl

theorem strIncludes_middle (a m b pat : String)
    (hm : (toLowerStr m).data = pat.data) :
    strIncludes (toLowerStr (a ++ m ++ b)) pat = true := by
  have hdata : (toLowerStr (a ++ m ++ b)).data =
      a.data.map Char.toLower ++ pat.data ++ b.data.map Char.toLower := by
    rw [toLowerStr_data, String.data_append, String.data_append, List.map_append,
      List.map_append, ← toLowerStr_data m, hm]
  show hasSub pat.data (toLowerStr (a ++ m ++ b)).data = true
  rw [hdata]
  exact hasSub_middle pat.data (a.data.map Char.toLower) (b.data.map Char.toLower)

/-- Claim C8: the intent classifier is a total function; any input whose
text contains the token reschedul in any letter case (here: the input
splits as s ++ t ++ u with t lowering to reschedul) classifies as
Reschedule whatever surrounds it; an input containing a cancel token but
no reschedule token classifies as Cancel; and an input containing neither
token classifies as Book. -/
theorem detectIntent_total_cases (s t u : String) :
    (toLowerStr t = "reschedul" → detectIntent (s ++ t ++ u) = Intent.reschedule) ∧
    (toLowerStr t = "cancel" →
        strIncludes (toLowerStr (s ++ t ++ u)) "reschedul" = false →
        detectIntent (s ++ t ++ u) = Intent.cancel) ∧
    (strIncludes (toLowerStr (s ++ t ++ u)) "reschedul" = false →
        strIncludes (toLowerStr (s ++ t ++ u)) "cancel" = false →
        detectIntent (s ++ t ++ u) = Intent.book) := by
  refine ⟨?_, ?_, ?_⟩
  · intro ht
    have h := strIncludes_middle s t u "reschedul" (by rw [ht])
    simp [detectIntent, h]
  · intro ht hnot
    have h := strIncludes_middle s t u "cancel" (by rw [ht])
    simp [detectIntent, hnot, h]
  · intro h1 h2
    simp [detectIntent, h1, h2]

/-- Witness for C8 at a concrete mixed-case input. -/
theorem detectIntent_total_cases_witness :
    detectIntent ("Please " ++ "ReSchedUl" ++ "e my visit") = Intent.reschedule :=
  (detectIntent_total_cases "Please " "ReSchedUl" "e my visit").1 (by decide)

/-- Claim C10: the appointment type extractor resolves synonym matches in
the fixed priority order follow-up, then physical, then specialist, then
the consultation synonym group; in particular a text containing both
specialist and consult, such as specialist consultation, resolves to the
specialist type and never to consultation. -/
theorem detectAppointmentType_priority (input : String) :
    ((strIncludes (toLowerStr input) "follow" || strIncludes (toLowerStr input) "follow-up") = true →
        detectAppointmentType input =
          some { key := AppointmentTypeKey.followup, label := "Follow-up", durationMinutes := 15 }) ∧
    ((strIncludes (toLowerStr input) "follow" || strIncludes (toLowerStr input) "follow-up") = false →
        strIncludes (toLowerStr input) "physical" = true →
        detectAppointmentType input =
          some { key := AppointmentTypeKey.physical, label := "Physical Exam", durationMinutes := 45 }) ∧
    ((strIncludes (toLowerStr input) "follow" || strIncludes (toLowerStr input) "follow-up") = false →
        strIncludes (toLowerStr input) "physical" = false →
        strIncludes (toLowerStr input) "specialist" = true →
        detectAppointmentType input =
          some { key := AppointmentTypeKey.specialist, label := "Specialist Consultation", durationMinutes := 60 }) ∧
    ((strIncludes (toLowerStr input) "follow" || strIncludes (toLowerStr input) "follow-up") = false →
        strIncludes (toLowerStr input) "physical" = false →
        strIncludes (toLowerStr input) "specialist" = false →
        (strIncludes (toLowerStr input) "consult" || strIncludes (toLowerStr input) "general" ||
         strIncludes (toLowerStr input) "checkup" || strIncludes (toLowerStr input) "check-up") = true →
        detectAppointmentType input =
          some { key := AppointmentTypeKey.consultation, label := "General Consultation", durationMinutes := 30 }) ∧
    detectAppointmentType "specialist consultation" =
      some { key := AppointmentTypeKey.specialist, label := "Specialist Consultation", durationMinutes := 60 } := by
  refine ⟨?_, ?_, ?_, ?_, by decide⟩
  · intro h1
    simp [detectAppointmentType, h1, APPOINTMENT_TYPES]
  · intro h1 h2
    simp [detectAppointmentType, h1, h2, APPOINTMENT_TYPES]
  · intro h1 h2 h3
    simp [detectAppointmentType, h1, h2, h3, APPOINTMENT_TYPES]
  · intro h1 h2 h3 h4
    simp [detectAppointmentType, h1, h2, h3, h4, APPOINTMENT_TYPES]

/-- Witness for C10: a text containing both the specialist synonym and the
consult synonym resolves to the specialist type via the third case. -/
theorem detectAppointmentType_priority_witness :
    detectAppointmentType "I need a SPECIALIST consultation slot" =
      some { key := AppointmentTypeKey.specialist, label := "Specialist Consultation", durationMinutes := 60 } :=
  (detectAppointmentType_priority "I need a SPECIALIST consultation slot").2.2.1
    (by decide) (by decide) (by decide)

/-! ## Digit-string lemmas for the slot selection extractor -/

theorem wsChar_of_digit (c : Char) (h : isDigitChar c = true) : wsChar c = false := by
  simp only [isDigitChar, Bool.and_eq_true, decide_eq_true_eq] at h
  simp only [wsChar, Bool.or_eq_false_iff, beq_eq_false_iff_ne, ne_eq]
  omega

theorem dropWhile_ws_digits (d : List Char) (h : ∀ c ∈ d, isDigitChar c = true) :
    d.dropWhile wsChar = d := by
  cases d with
  | nil => rfl
  | cons c cs =>
    have hc : wsChar c = false := wsChar_of_digit c (h c (by simp))
    simp [List.dropWhile, hc]

theorem jsTrim_digits (d : List Char) (h : ∀ c ∈ d, isDigitChar c = true) :
    jsTrim (String.mk d) = String.mk d := by
  have hrev : ∀ c ∈ d.reverse, isDigitChar c = true := by
    intro c hc
    exact h c (List.mem_reverse.mp hc)
  show String.mk (((d.dropWhile wsChar).reverse.dropWhile wsChar).reverse) = String.mk d
  rw [dropWhile_ws_digits d h, dropWhile_ws_digits d.reverse hrev, List.reverse_reverse]

theorem timeRest_digits (l : List Char) (h : ∀ c ∈ l, isDigitChar c = true) :
    timeRest l = none := by
  match l with
  | [] => rfl
  | [_] => rfl
  | [_, _] => rfl
  | col :: m1 :: m2 :: rest =>
    have hcol : isDigitChar col = true := h col (by simp)
    simp only [isDigitChar, Bool.and_eq_true, decide_eq_true_eq] at hcol
    have : (col == ':') = false := by
      simp only [beq_eq_false_iff_ne, ne_eq]
      intro he
      rw [he] at hcol
      exact absurd hcol (by decide)
    simp [timeRest, this]

theorem timeHere_digits (l : List Char) (h : ∀ c ∈ l, isDigitChar c = true) :
    timeHere l = none := by
  match l with
  | [] => rfl
  | [c] =>
    have : timeRest ([] : List Char) = none := rfl
    simp [timeHere, this]
  | c1 :: c2 :: rest =>
    have h1 : timeRest rest = none :=
      timeRest_digits rest (fun c hc => h c (by simp [hc]))
    have h2 : timeRest (c2 :: rest) = none :=
      timeRest_digits (c2 :: rest) (fun c hc => h c (by simp at hc; rcases hc with h | h <;> simp [h]))
    simp [timeHere, h1, h2]

theorem findTime_digits (l : List Char) (h : ∀ c ∈ l, isDigitChar c = true) :
    ∀ prev, findTime prev l = none := by
  induction l with
  | nil => intro prev; rfl
  | cons c cs ih =>
    intro prev
    have hh : timeHere (c :: cs) = none := timeHere_digits (c :: cs) h
    have ht : findTime (some c) cs = none := ih (fun x hx => h x (by simp [hx])) (some c)
    cases prev <;> simp [findTime, hh, ht]

theorem slotByTime_digits (d : List Char) (slots : List AvailabilitySlot)
    (h : ∀ c ∈ d, isDigitChar c = true) : slotByTime (String.mk d) slots = none := by
  have : findTime none (String.mk d).data = none := findTime_digits d h none
  simp [slotByTime, this]

/-- Claim C9: on a purely numeric input the slot selection extractor
treats the value N as a one-based index: within 1..length it returns the
N-th slot, out of that range it returns none (the fallthrough time-literal
arm cannot match a digit-only input); and the numeric arm takes priority,
deciding the result for every input that trims to a digit string with an
in-range value. -/
theorem parseSlotSelection_spec (slots : List AvailabilitySlot) (d : List Char)
    (hne : d ≠ []) (hdig : ∀ c ∈ d, isDigitChar c = true) :
    (1 ≤ digitsToNat d → digitsToNat d ≤ slots.length →
        parseSlotSelection (String.mk d) slots = slots.get? (digitsToNat d - 1)) ∧
    (digitsToNat d = 0 ∨ slots.length < digitsToNat d →
        parseSlotSelection (String.mk d) slots = none) ∧
    (∀ input : String, (jsTrim input).data = d →
        1 ≤ digitsToNat d → digitsToNat d ≤ slots.length →
        parseSlotSelection input slots = slots.get? (digitsToNat d - 1)) := by
  have hall : d.all isDigitChar = true := List.all_eq_true.mpr hdig
  have hmain : ∀ input : String, (jsTrim input).data = d →
      1 ≤ digitsToNat d → digitsToNat d ≤ slots.length →
      parseSlotSelection input slots = slots.get? (digitsToNat d - 1) := by
    intro input htrim h1 h2
    have hslots : slots ≠ [] := by
      intro hcon
      rw [hcon] at h2
      simp at h2
      omega
    unfold parseSlotSelection
    rw [if_neg hslots, htrim]
    rw [if_pos ⟨hne, hall⟩]
    have hidx : (0 ≤ ((digitsToNat d : Int)) - 1 ∧
        ((digitsToNat d : Int)) - 1 < (slots.length : Int)) := by
      constructor <;> [omega; omega]
    rw [if_pos hidx]
    congr 1
    omega
  refine ⟨?_, ?_, hmain⟩
  · intro h1 h2
    exact hmain (String.mk d) (congrArg String.data (jsTrim_digits d hdig)) h1 h2
  · intro hout
    unfold parseSlotSelection
    by_cases hslots : slots = []
    · rw [if_pos hslots]
    · rw [if_neg hslots]
      rw [congrArg String.data (jsTrim_digits d hdig)]
      rw [if_pos ⟨hne, hall⟩]
      have hidx : ¬ (0 ≤ ((digitsToNat d : Int)) - 1 ∧
          ((digitsToNat d : Int)) - 1 < (slots.length : Int)) := by
        rcases hout with h | h
        · intro hcon
          omega
        · intro hcon
          omega
      rw [if_neg hidx]
      exact slotByTime_digits d slots hdig

/-- Witness for C9: input 2 against a two-slot list picks the second slot. -/
theorem parseSlotSelection_spec_witness :
    parseSlotSelection "2" [slotNine, slotTen] = some slotTen := by
  have h := (parseSlotSelection_spec [slotNine, slotTen] "2".data (by decide)
    (by decide)).1 (by decide) (by decide)
  exact h.trans (by decide)

/-- Counterexample to claim C7 as stated: at the reason step of the cancel
flow the turn skip leads to a state that records no reason at all (null),
not the string value no reason given. -/
theorem cancelSkip_counterexample :
    (handleCancelFlow okEnv cancelReasonState "skip").newState.map (fun s => s.reason) = some none ∧
    (handleCancelFlow okEnv cancelReasonState "skip").newState.map (fun s => s.reason) ≠
      some (some "no reason given") := by
  refine ⟨by decide, by decide⟩

/-- Claim C7 amended: in the reason step of the cancel flow the skip
keyword (case-insensitive exact match after trimming) maps the recorded
reason to null, leaving it blank; any other turn records the trimmed text
verbatim.  The recorded reason is stored in the state and passed to the
remote cancel call. -/
theorem cancelReason_amended (env : Env) (state : ConversationState) (input : String)
    (bid : String) (hstep : state.step = ConversationStep.askReasonForCancel)
    (hbid : state.bookingId = some bid) :
    handleCancelFlow env state input =
      (let r : Option String :=
        if toLowerStr (jsTrim input) = "skip" then none else some (jsTrim input)
      match env.cancelAppointment bid r with
      | RemoteResult.failure =>
        { newState := some createInitialState, msgs := [AgentMsg.cancelFailed] }
      | RemoteResult.success resp =>
        { newState := some { state with
            reason := r
            bookingId := some resp.booking_id
            step := ConversationStep.cancelComplete }
          msgs := [AgentMsg.cancelled resp.booking_id] }) := by
  obtain ⟨i, st, aty, dt, sl, ss, pn, pe, pp, rs, bi⟩ := state
  simp only at hstep hbid
  subst hstep
  subst hbid
  rfl

/-- Witness for C7 at a concrete state and a mixed-case padded skip turn. -/
theorem cancelReason_amended_witness :
    handleCancelFlow okEnv cancelReasonState "  SKIP  " =
      { newState := some { cancelReasonState with
          reason := none
          bookingId := some "APPT-1"
          step := ConversationStep.cancelComplete }
        msgs := [AgentMsg.cancelled "APPT-1"] } := by
  have h := cancelReason_amended okEnv cancelReasonState "  SKIP  " "APPT-1" rfl rfl
  exact h.trans (by decide)

/-- Claim C3: a failed remote reschedule call and a failed remote cancel
call each reset the conversation to the empty initial state (intent unset,
awaiting-intent step), discarding all collected progress. -/
theorem remoteFailure_fullReset (env : Env) (s1 s2 : ConversationState) (in1 in2 : String)
    (d bid1 bid2 : String) (m : List Char) :
    (s1.step = ConversationStep.askNewTimeForReschedule → s1.date = some d →
     s1.bookingId = some bid1 → findTime none in1.data = some m →
     env.rescheduleAppointment bid1 d (padTime m) = RemoteResult.failure →
     handleRescheduleFlow env s1 in1 =
       { newState := some createInitialState, msgs := [AgentMsg.rescheduleFailed] }) ∧
    (s2.step = ConversationStep.askReasonForCancel → s2.bookingId = some bid2 →
     env.cancelAppointment bid2
        (if toLowerStr (jsTrim in2) = "skip" then none else some (jsTrim in2)) =
       RemoteResult.failure →
     handleCancelFlow env s2 in2 =
       { newState := some createInitialState, msgs := [AgentMsg.cancelFailed] }) := by
  constructor
  · intro hstep hdate hbid hm hfail
    obtain ⟨i, st, aty, dt, sl, ss, pn, pe, pp, rs, bi⟩ := s1
    simp only at hstep hdate hbid
    subst hstep
    subst hdate
    subst hbid
    simp [handleRescheduleFlow, hm, hfail]
  · intro hstep hbid hfail
    obtain ⟨i, st, aty, dt, sl, ss, pn, pe, pp, rs, bi⟩ := s2
    simp only at hstep hbid
    subst hstep
    subst hbid
    simp [handleCancelFlow, hfail]

/-- Witness for C3 with every remote call failing, at concrete mid-flow
states of the two flows. -/
theorem remoteFailure_fullReset_witness :
    handleRescheduleFlow failRemoteEnv rescheduleTimeState "10:30" =
      { newState := some createInitialState, msgs := [AgentMsg.rescheduleFailed] } ∧
    handleCancelFlow failRemoteEnv cancelReasonState "not feeling well" =
      { newState := some createInitialState, msgs := [AgentMsg.cancelFailed] } := by
  constructor
  · exact (remoteFailure_fullReset failRemoteEnv rescheduleTimeState cancelReasonState
      "10:30" "x" "2024-02-03" "APPT-1" "APPT-1" ['1', '0', ':', '3', '0']).1
      rfl rfl rfl (by decide) rfl
  · exact (remoteFailure_fullReset failRemoteEnv rescheduleTimeState cancelReasonState
      "10:30" "not feeling well" "2024-02-03" "APPT-1" "APPT-1" ['1', '0', ':', '3', '0']).2
      rfl rfl rfl

/-- Counterexample to claim C2 as stated: after a failed book call the
flow reports the generic failure and sets the step to askDate, but the
previously selected slot is still set in the resulting state, not
discarded. -/
theorem bookFailure_counterexample :
    (handleBookingFlow failRemoteEnv preConfirmState "checkup visit").msgs = [AgentMsg.bookingFailed] ∧
    (handleBookingFlow failRemoteEnv preConfirmState "checkup visit").newState.map (fun s => s.step) =
      some ConversationStep.askDate ∧
    (handleBookingFlow failRemoteEnv preConfirmState "checkup visit").newState.map (fun s => s.selectedSlot) =
      some (some slotNine) ∧
    (handleBookingFlow failRemoteEnv preConfirmState "checkup visit").newState.map (fun s => s.selectedSlot) ≠
      some none := by
  refine ⟨by decide, by decide, by decide, by decide⟩

/-- Claim C2 amended: a failed book call reports the generic failure
message and sets the step back to the date-resolution step, retaining the
previously resolved appointment type and also retaining the previously
selected slot, the date, the contact fields and the just-collected reason;
no field is unset. -/
theorem bookFailure_amended (env : Env) (s : ConversationState) (input : String)
    (t : AppointmentTypeConfig) (d : String) (slot : AvailabilitySlot) (nm em ph : String)
    (hintent : s.intent = some Intent.book)
    (hty : s.appointmentType = some t) (hd : s.date = some d)
    (hsel : s.selectedSlot = some slot) (hnm : s.patientName = some nm)
    (hem : s.patientEmail = some em) (hph : s.patientPhone = some ph)
    (hrs : s.reason = none)
    (hfail : env.bookAppointment t d slot nm em ph (some (jsTrim input)) = RemoteResult.failure) :
    handleBookingFlow env s input =
      { newState := some { s with reason := some (jsTrim input), step := ConversationStep.askDate }
        msgs := [AgentMsg.bookingFailed] } ∧
    ({ s with reason := some (jsTrim input), step := ConversationStep.askDate }).appointmentType = some t ∧
    ({ s with reason := some (jsTrim input), step := ConversationStep.askDate }).selectedSlot = some slot := by
  obtain ⟨i, st, aty, dt, sl, ss, pn, pe, pp, rs, bi⟩ := s
  simp only at hintent hty hd hsel hnm hem hph hrs
  subst hintent
  subst hty
  subst hd
  subst hsel
  subst hnm
  subst hem
  subst hph
  subst hrs
  refine ⟨?_, rfl, rfl⟩
  simp [handleBookingFlow, handleBookingFlowCore, hfail]

/-- Witness for C2 amended at the concrete pre-confirm state with a
failing remote book call. -/
theorem bookFailure_amended_witness :
    handleBookingFlow failRemoteEnv preConfirmState "annual checkup" =
      { newState := some { preConfirmState with
          reason := some "annual checkup"
          step := ConversationStep.askDate }
        msgs := [AgentMsg.bookingFailed] } := by
  have h := bookFailure_amended failRemoteEnv preConfirmState "annual checkup" physicalConfig
    "2024-02-01" slotNine "Jane Doe" "jane@example.com" "555-0100"
    rfl rfl rfl rfl rfl rfl rfl rfl rfl
  exact h.1.trans (by decide)

/-- A state whose step is not askIntent is not the initial state. -/
theorem ne_initial_of_step (s : ConversationState)
    (h : s.step ≠ ConversationStep.askIntent) : s ≠ createInitialState := by
  intro hcon
  exact h (by rw [hcon]; rfl)

/-- Counterexample to claim C6 as stated: a booking that reaches the
terminal complete step keeps all collected fields in the state; the state
is not discarded or reset to the empty initial state. -/
theorem completion_counterexample :
    (handleBookingFlow okEnv preConfirmState "annual checkup").newState.map (fun s => s.step) =
      some ConversationStep.bookingComplete ∧
    (handleBookingFlow okEnv preConfirmState "annual checkup").newState.map (fun s => s.patientName) =
      some (some "Jane Doe") ∧
    (handleBookingFlow okEnv preConfirmState "annual checkup").newState ≠ some createInitialState := by
  refine ⟨by decide, by decide, by decide⟩

/-- Claim C6 amended: when a flow reaches its terminal complete step
(booking, reschedule or cancel completion) the conversation state is
retained, keeping the collected fields, with the booking id updated from
the response and the step set to the terminal step; it is not reset to the
empty initial state. -/
theorem completion_retains_state (env : Env) (sb sr sc : ConversationState)
    (ib ir ic : String) (t : AppointmentTypeConfig) (d dr : String)
    (slot : AvailabilitySlot) (nm em ph bidr bidc : String) (m : List Char)
    (rb : BookResponse) (rr : RescheduleResponse) (rc : CancelResponse) :
    (sb.intent = some Intent.book → sb.appointmentType = some t → sb.date = some d →
     sb.selectedSlot = some slot → sb.patientName = some nm → sb.patientEmail = some em →
     sb.patientPhone = some ph → sb.reason = none →
     env.bookAppointment t d slot nm em ph (some (jsTrim ib)) = RemoteResult.success rb →
     handleBookingFlow env sb ib =
       { newState := some { sb with
           reason := some (jsTrim ib)
           bookingId := some rb.booking_id
           step := ConversationStep.bookingComplete }
         msgs := [AgentMsg.bookingConfirmed rb.booking_id rb.confirmation_code] } ∧
     ({ sb with
         reason := some (jsTrim ib)
         bookingId := some rb.booking_id
         step := ConversationStep.bookingComplete } : ConversationState) ≠ createInitialState) ∧
    (sr.step = ConversationStep.askNewTimeForReschedule → sr.date = some dr →
     sr.bookingId = some bidr → findTime none ir.data = some m →
     env.rescheduleAppointment bidr dr (padTime m) = RemoteResult.success rr →
     handleRescheduleFlow env sr ir =
       { newState := some { sr with
           bookingId := some rr.booking_id
           step := ConversationStep.rescheduleComplete }
         msgs := [AgentMsg.rescheduled rr.booking_id rr.previous_booking_id (some dr) (padTime m)] } ∧
     ({ sr with
         bookingId := some rr.booking_id
         step := ConversationStep.rescheduleComplete } : ConversationState) ≠ createInitialState) ∧
    (sc.step = ConversationStep.askReasonForCancel → sc.bookingId = some bidc →
     env.cancelAppointment bidc
        (if toLowerStr (jsTrim ic) = "skip" then none else some (jsTrim ic)) =
       RemoteResult.success rc →
     handleCancelFlow env sc ic =
       { newState := some { sc with
           reason := if toLowerStr (jsTrim ic) = "skip" then none else some (jsTrim ic)
           bookingId := some rc.booking_id
           step := ConversationStep.cancelComplete }
         msgs := [AgentMsg.cancelled rc.booking_id] } ∧
     ({ sc with
         reason := if toLowerStr (jsTrim ic) = "skip" then none else some (jsTrim ic)
         bookingId := some rc.booking_id
         step := ConversationStep.cancelComplete } : ConversationState) ≠ createInitialState) := by
  refine ⟨?_, ?_, ?_⟩
  · intro hintent hty hd hsel hnm hem hph hrs hok
    obtain ⟨i, st, aty, dt, sl, ss, pn, pe, pp, rs, bi⟩ := sb
    simp only at hintent hty hd hsel hnm hem hph hrs
    subst hintent
    subst hty
    subst hd
    subst hsel
    subst hnm
    subst hem
    subst hph
    subst hrs
    exact ⟨by simp [handleBookingFlow, handleBookingFlowCore, hok], ne_initial_of_step _ (by intro h; simp at h)⟩
  · intro hstep hd hbid hm hok
    obtain ⟨i, st, aty, dt, sl, ss, pn, pe, pp, rs, bi⟩ := sr
    simp only at hstep hd hbid
    subst hstep
    subst hd
    subst hbid
    exact ⟨by simp [handleRescheduleFlow, hm, hok], ne_initial_of_step _ (by intro h; simp at h)⟩
  · intro hstep hbid hok
    obtain ⟨i, st, aty, dt, sl, ss, pn, pe, pp, rs, bi⟩ := sc
    simp only at hstep hbid
    subst hstep
    subst hbid
    exact ⟨by simp [handleCancelFlow, hok], ne_initial_of_step _ (by intro h; simp at h)⟩

/-- Witness for C6 amended: the three flows completing against succeeding
remote calls, at concrete states. -/
theorem completion_retains_state_witness :
    handleBookingFlow okEnv preConfirmState "yearly physical" =
      { newState := some { preConfirmState with
          reason := some "yearly physical"
          bookingId := some "APPT-20240201-0900"
          step := ConversationStep.bookingComplete }
        msgs := [AgentMsg.bookingConfirmed "APPT-20240201-0900" "CONF-AB12CD"] } ∧
    handleRescheduleFlow okEnv rescheduleTimeState "10:30" =
      { newState := some { rescheduleTimeState with
          bookingId := some "APPT-NEW"
          step := ConversationStep.rescheduleComplete }
        msgs := [AgentMsg.rescheduled "APPT-NEW" "APPT-1" (some "2024-02-03") "10:30"] } := by
  have h := completion_retains_state okEnv preConfirmState rescheduleTimeState cancelReasonState
    "yearly physical" "10:30" "ignored" physicalConfig "2024-02-01" "2024-02-03" slotNine
    "Jane Doe" "jane@example.com" "555-0100" "APPT-1" "APPT-1" ['1', '0', ':', '3', '0']
    { booking_id := "APPT-20240201-0900", status := "confirmed", confirmation_code := "CONF-AB12CD" }
    { booking_id := "APPT-NEW", status := "rescheduled", previous_booking_id := "APPT-1" }
    { booking_id := "APPT-1", status := "cancelled" }
  constructor
  · exact ((h.1 rfl rfl rfl rfl rfl rfl rfl rfl (by decide)).1).trans (by decide)
  · exact ((h.2.1 rfl rfl rfl (by decide) (by decide)).1).trans (by decide)

/-- Claim C1, evaluated at its failing input.  After a successful
availability query with zero available slots the handler does report no
availability and sets the step back to askDate, but the date field stays
set, so on the next turn the nullness-directed booking handler skips the
date branch and the slot branch and consumes that turn as the patient
name, advancing to askEmail with no slot selected: the user cannot supply
another date and the flow advances past slot selection. -/
theorem emptyAvailability_bug :
    (runTurns noSlotsEnv createInitialState ["book a physical exam"]).step =
      ConversationStep.askDate ∧
    ((processTurn noSlotsEnv (runTurns noSlotsEnv createInitialState ["book a physical exam"])
        "2024-02-05").2 = [AgentMsg.noAvailability] ∧
      (processTurn noSlotsEnv (runTurns noSlotsEnv createInitialState ["book a physical exam"])
        "2024-02-05").1.step = ConversationStep.askDate ∧
      (processTurn noSlotsEnv (runTurns noSlotsEnv createInitialState ["book a physical exam"])
        "2024-02-05").1.date = some "2024-02-05") ∧
    ((runTurns noSlotsEnv createInitialState
        ["book a physical exam", "2024-02-05", "2024-02-06"]).patientName = some "2024-02-06" ∧
      (runTurns noSlotsEnv createInitialState
        ["book a physical exam", "2024-02-05", "2024-02-06"]).step = ConversationStep.askEmail ∧
      (runTurns noSlotsEnv createInitialState
        ["book a physical exam", "2024-02-05", "2024-02-06"]).date = some "2024-02-05" ∧
      (runTurns noSlotsEnv createInitialState
        ["book a physical exam", "2024-02-05", "2024-02-06"]).selectedSlot = none) := by
  refine ⟨by decide, ⟨by decide, by decide, by decide⟩, ⟨by decide, by decide, by decide, by decide⟩⟩

/-- Claim C4, evaluated at its failing input.  A valid sequence of user
turns (book with zero availability on the chosen date, then four ordinary
turns) reaches the confirm step with the selected slot unset, so the
confirm-time guard fires: the handler emits the missing-information
message and resets the whole conversation.  The guard is reachable
through user input alone. -/
theorem confirmGuard_reachable_bug :
    (runTurns noSlotsEnv createInitialState
      ["book a physical exam", "2024-02-05", "2024-02-06", "jane@example.com", "555-0100"]).selectedSlot =
        none ∧
    (processTurn noSlotsEnv
      (runTurns noSlotsEnv createInitialState
        ["book a physical exam", "2024-02-05", "2024-02-06", "jane@example.com", "555-0100"])
      "annual checkup").2 = [AgentMsg.missingBookingInfo] ∧
    (processTurn noSlotsEnv
      (runTurns noSlotsEnv createInitialState
        ["book a physical exam", "2024-02-05", "2024-02-06", "jane@example.com", "555-0100"])
      "annual checkup").1 = createInitialState := by
  refine ⟨by decide, by decide, by decide⟩

/-! ## The freshness invariant on selected slots -/

/-- The invariant of claim C5, strengthened so that it is inductive: a set
selected slot belongs to the stored slot list, and a state with no date
has no selected slot (needed because the availability branch overwrites
the slot list and is reachable only while the date is unset). -/
def stateInv (s : ConversationState) : Prop :=
  (s.date = none → s.selectedSlot = none) ∧
  ∀ y, s.selectedSlot = some y → y ∈ s.slots

theorem stateInv_initial : stateInv createInitialState :=
  ⟨fun _ => rfl, fun _ hy => Option.noConfusion hy⟩

theorem stateInv_fresh (i : Intent) (st : ConversationStep) :
    stateInv { createInitialState with intent := some i, step := st } :=
  ⟨fun _ => rfl, fun _ hy => Option.noConfusion hy⟩

theorem slotByTime_mem (input : String) (slots : List AvailabilitySlot)
    (slot : AvailabilitySlot) (h : slotByTime input slots = some slot) : slot ∈ slots := by
  unfold slotByTime at h
  cases hft : findTime none input.data with
  | none => rw [hft] at h; exact Option.noConfusion h
  | some m => rw [hft] at h; exact List.mem_of_find?_eq_some h

theorem parseSlotSelection_mem (input : String) (slots : List AvailabilitySlot)
    (slot : AvailabilitySlot) (h : parseSlotSelection input slots = some slot) : slot ∈ slots := by
  unfold parseSlotSelection at h
  by_cases he : slots = []
  · rw [if_pos he] at h; exact Option.noConfusion h
  · rw [if_neg he] at h
    by_cases hn : (jsTrim input).data ≠ [] ∧ ((jsTrim input).data).all isDigitChar
    · rw [if_pos hn] at h
      by_cases hr : (0 : Int) ≤ (digitsToNat (jsTrim input).data : Int) - 1 ∧
          (digitsToNat (jsTrim input).data : Int) - 1 < (slots.length : Int)
      · rw [if_pos hr] at h
        exact List.get?_mem h
      · rw [if_neg hr] at h
        exact slotByTime_mem input slots slot h
    · rw [if_neg hn] at h
      exact slotByTime_mem input slots slot h

theorem bookingFlowCore_inv (env : Env) (s0 : ConversationState) (input : String)
    (x : ConversationState) (hinv : stateInv s0)
    (hx : (handleBookingFlowCore env s0 input).newState = some x) : stateInv x := by
  obtain ⟨h1, h2⟩ := hinv
  unfold handleBookingFlowCore at hx
  by_cases hty : s0.appointmentType = none
  · rw [if_pos hty] at hx
    cases hdet : detectAppointmentType input with
    | some t =>
      rw [hdet] at hx
      injection hx with hx
      subst hx
      exact ⟨h1, h2⟩
    | none =>
      rw [hdet] at hx
      injection hx with hx
      subst hx
      exact ⟨h1, h2⟩
  · rw [if_neg hty] at hx
    by_cases hdate : s0.date = none
    · rw [if_pos hdate] at hx
      cases hnorm : normalizeDateFromInput env input with
      | none =>
        rw [hnorm] at hx
        exact Option.noConfusion hx
      | some date =>
        simp only [hnorm] at hx
        cases haty : s0.appointmentType with
        | none => exact absurd haty hty
        | some aty =>
          simp only [haty] at hx
          cases hav : env.fetchAvailability date aty with
          | failure =>
            simp only [hav] at hx
            injection hx with hx
            subst hx
            refine ⟨?_, ?_⟩
            · intro hcon
              exact Option.noConfusion hcon
            · show ∀ y, s0.selectedSlot = some y → y ∈ s0.slots
              exact h2
          | success slots =>
            simp only [hav] at hx
            by_cases hemp : (slots.filter (fun slot => slot.available)).take 5 = []
            · rw [if_pos hemp] at hx
              injection hx with hx
              subst hx
              refine ⟨?_, ?_⟩
              · intro hcon
                exact Option.noConfusion hcon
              · show ∀ y, s0.selectedSlot = some y → y ∈ ([] : List AvailabilitySlot)
                intro y hy
                rw [h1 hdate] at hy
                exact Option.noConfusion hy
            · rw [if_neg hemp] at hx
              injection hx with hx
              subst hx
              refine ⟨?_, ?_⟩
              · intro hcon
                exact Option.noConfusion hcon
              · show ∀ y, s0.selectedSlot = some y →
                  y ∈ (slots.filter (fun slot => slot.available)).take 5
                intro y hy
                rw [h1 hdate] at hy
                exact Option.noConfusion hy
    · rw [if_neg hdate] at hx
      by_cases hsel : s0.selectedSlot = none ∧ s0.slots ≠ []
      · rw [if_pos hsel] at hx
        cases hps : parseSlotSelection input s0.slots with
        | none =>
          rw [hps] at hx
          exact Option.noConfusion hx
        | some slot =>
          rw [hps] at hx
          injection hx with hx
          subst hx
          refine ⟨?_, ?_⟩
          · intro hcon
            exact absurd hcon hdate
          · show ∀ y, some slot = some y → y ∈ s0.slots
            intro y hy
            injection hy with hy
            subst hy
            exact parseSlotSelection_mem input s0.slots slot hps
      · rw [if_neg hsel] at hx
        by_cases hnm : s0.patientName = none
        · rw [if_pos hnm] at hx
          injection hx with hx
          subst hx
          exact ⟨h1, h2⟩
        · rw [if_neg hnm] at hx
          by_cases hem : s0.patientEmail = none
          · rw [if_pos hem] at hx
            injection hx with hx
            subst hx
            exact ⟨h1, h2⟩
          · rw [if_neg hem] at hx
            by_cases hph : s0.patientPhone = none
            · rw [if_pos hph] at hx
              injection hx with hx
              subst hx
              exact ⟨h1, h2⟩
            · rw [if_neg hph] at hx
              by_cases hrs : s0.reason = none
              · rw [if_pos hrs] at hx
                simp only [] at hx
                split at hx
                · split at hx
                  · injection hx with hx
                    subst hx
                    exact ⟨h1, h2⟩
                  · injection hx with hx
                    subst hx
                    exact ⟨h1, h2⟩
                · injection hx with hx
                  subst hx
                  exact stateInv_initial
              · rw [if_neg hrs] at hx
                exact Option.noConfusion hx

theorem bookingFlow_inv (env : Env) (s : ConversationState) (input : String)
    (x : ConversationState) (hinv : stateInv s)
    (hx : (handleBookingFlow env s input).newState = some x) : stateInv x := by
  unfold handleBookingFlow at hx
  by_cases hi : s.intent = none
  · rw [if_pos hi] at hx
    exact bookingFlowCore_inv env { s with intent := some Intent.book } input x
      ⟨hinv.1, hinv.2⟩ hx
  · rw [if_neg hi] at hx
    exact bookingFlowCore_inv env s input x hinv hx

theorem rescheduleFlow_inv (env : Env) (s : ConversationState) (input : String)
    (x : ConversationState) (hinv : stateInv s)
    (hx : (handleRescheduleFlow env s input).newState = some x) : stateInv x := by
  obtain ⟨h1, h2⟩ := hinv
  unfold handleRescheduleFlow at hx
  simp only [] at hx
  by_cases hb1 : s.bookingId = none ∧ s.step = ConversationStep.askBookingIdForReschedule
  · rw [if_pos hb1] at hx
    by_cases hid : jsTrim input = ""
    · rw [if_pos hid] at hx
      exact Option.noConfusion hx
    · rw [if_neg hid] at hx
      injection hx with hx
      subst hx
      exact ⟨h1, h2⟩
  · rw [if_neg hb1] at hx
    by_cases hb2 : s.date = none ∧ s.step = ConversationStep.askNewDateForReschedule
    · rw [if_pos hb2] at hx
      cases hnorm : normalizeDateFromInput env input with
      | none =>
        rw [hnorm] at hx
        exact Option.noConfusion hx
      | some date =>
        rw [hnorm] at hx
        injection hx with hx
        subst hx
        refine ⟨?_, ?_⟩
        · intro hcon
          exact Option.noConfusion hcon
        · show ∀ y, s.selectedSlot = some y → y ∈ s.slots
          exact h2
    · rw [if_neg hb2] at hx
      by_cases hb3 : s.date ≠ none ∧ s.step = ConversationStep.askNewTimeForReschedule
      · rw [if_pos hb3] at hx
        cases hft : findTime none input.data with
        | none =>
          rw [hft] at hx
          exact Option.noConfusion hx
        | some m =>
          simp only [hft] at hx
          split at hx
          · split at hx
            · injection hx with hx
              subst hx
              exact stateInv_initial
            · injection hx with hx
              subst hx
              exact ⟨h1, h2⟩
          · injection hx with hx
            subst hx
            exact stateInv_initial
      · rw [if_neg hb3] at hx
        exact Option.noConfusion hx

theorem cancelFlow_inv (env : Env) (s : ConversationState) (input : String)
    (x : ConversationState) (hinv : stateInv s)
    (hx : (handleCancelFlow env s input).newState = some x) : stateInv x := by
  obtain ⟨h1, h2⟩ := hinv
  unfold handleCancelFlow at hx
  simp only [] at hx
  by_cases hb1 : s.bookingId = none ∧ s.step = ConversationStep.askBookingIdForCancel
  · rw [if_pos hb1] at hx
    by_cases hid : jsTrim input = ""
    · rw [if_pos hid] at hx
      exact Option.noConfusion hx
    · rw [if_neg hid] at hx
      injection hx with hx
      subst hx
      exact ⟨h1, h2⟩
  · rw [if_neg hb1] at hx
    by_cases hb2 : s.step = ConversationStep.askReasonForCancel
    · rw [if_pos hb2] at hx
      split at hx
      · injection hx with hx
        subst hx
        exact stateInv_initial
      · split at hx
        · injection hx with hx
          subst hx
          exact stateInv_initial
        · injection hx with hx
          subst hx
          exact ⟨h1, h2⟩
    · rw [if_neg hb2] at hx
      exact Option.noConfusion hx

theorem processTurn_inv (env : Env) (s : ConversationState) (input : String)
    (hinv : stateInv s) : stateInv (processTurn env s input).1 := by
  unfold processTurn
  simp only []
  by_cases htr : jsTrim input = ""
  · rw [if_pos htr]
    exact hinv
  · rw [if_neg htr]
    by_cases hstep : s.step = ConversationStep.idle ∨ s.step = ConversationStep.askIntent
    · rw [if_pos hstep]
      cases detectIntent (jsTrim input) with
      | book =>
        cases hout : (handleBookingFlow env s (jsTrim input)).newState with
        | none => exact stateInv_fresh Intent.book ConversationStep.askIntent
        | some y => exact bookingFlow_inv env s (jsTrim input) y hinv hout
      | reschedule => exact stateInv_fresh Intent.reschedule ConversationStep.askBookingIdForReschedule
      | cancel => exact stateInv_fresh Intent.cancel ConversationStep.askBookingIdForCancel
    · rw [if_neg hstep]
      by_cases hr1 : s.intent = some Intent.book ∨ s.step = ConversationStep.askType ∨
          s.step = ConversationStep.askDate
      · rw [if_pos hr1]
        cases hout : (handleBookingFlow env s (jsTrim input)).newState with
        | none => exact hinv
        | some y => exact bookingFlow_inv env s (jsTrim input) y hinv hout
      · rw [if_neg hr1]
        by_cases hr2 : s.intent = some Intent.reschedule ∨
            s.step = ConversationStep.askBookingIdForReschedule ∨
            s.step = ConversationStep.askNewDateForReschedule ∨
            s.step = ConversationStep.askNewTimeForReschedule
        · rw [if_pos hr2]
          cases hout : (handleRescheduleFlow env s (jsTrim input)).newState with
          | none => exact hinv
          | some y => exact rescheduleFlow_inv env s (jsTrim input) y hinv hout
        · rw [if_neg hr2]
          by_cases hr3 : s.intent = some Intent.cancel ∨
              s.step = ConversationStep.askBookingIdForCancel ∨
              s.step = ConversationStep.askReasonForCancel
          · rw [if_pos hr3]
            cases hout : (handleCancelFlow env s (jsTrim input)).newState with
            | none => exact hinv
            | some y => exact cancelFlow_inv env s (jsTrim input) y hinv hout
          · rw [if_neg hr3]
            cases hout : (handleBookingFlow env s (jsTrim input)).newState with
            | none => exact hinv
            | some y => exact bookingFlow_inv env s (jsTrim input) y hinv hout

theorem reachable_stateInv (s : ConversationState) (hr : Reachable s) : stateInv s := by
  induction hr with
  | init => exact stateInv_initial
  | step env input s _ ih => exact processTurn_inv env s input ih

/-- Claim C5: in every conversation state reachable through accepted user
turns, under arbitrary remote behaviour in each turn, a set selectedSlot
is an element of the slot list most recently stored in the state; a
selection is never satisfied against a stale list.  Proved from the
inductive invariant: parseSlotSelection only returns members of the list
it is given, and every transition that overwrites the stored list happens
while no slot is selected. -/
theorem selectedSlot_in_recent_slots (s : ConversationState) (hr : Reachable s)
    (y : AvailabilitySlot) (hy : s.selectedSlot = some y) : y ∈ s.slots :=
  (reachable_stateInv s hr).2 y hy

/-- Witness for C5: a three-turn booking prefix that selects slot 1 out of
the freshly fetched list; the theorem places that slot in the stored list. -/
theorem selectedSlot_in_recent_slots_witness :
    slotNine ∈ (runTurns okEnv createInitialState
      ["book a physical exam", "2024-02-05", "1"]).slots := by
  have h0 : Reachable createInitialState := Reachable.init
  have h1 := Reachable.step okEnv "book a physical exam" createInitialState h0
  have h2 := Reachable.step okEnv "2024-02-05" _ h1
  have h3 := Reachable.step okEnv "1" _ h2
  exact selectedSlot_in_recent_slots _ h3 slotNine (by decide)

end MedSched
